import Mathlib

/-!
Verification of the streaming-value abstraction of the PPR workshop
repository: the `Streamable` type, the `useStreamable` resolver with its
module-level `promiseCache` (a JS `Map<string, Promise<unknown>>`), the
`isPromise` discriminant, and the `UseStreamable` / `Stream` Suspense
composition (final version of the workshop, the one stored in the repo).

Embedding conventions:
* A JS promise is modelled by its identity: a natural-number id into a
  promise heap.  The heap is a list of one-shot states
  (pending / fulfilled / rejected); allocation appends to the list, so a
  promise's id is its allocation index and "a new asynchronous primitive
  was created" is visible as heap growth.
* `Promise.resolve` is modelled by `promiseResolve`: applied to a native
  promise it returns that same promise id with the heap unchanged
  (standard JS semantics); applied to a synchronous value it allocates a
  fresh, already-fulfilled promise.
* React's `use` is modelled by `usePromise`, returning the spec's
  explicit result sum `Ready / Pending(handle) / Failed(error)`
  (`Resolution` below): a pending promise suspends the render attempt, a
  fulfilled one yields its value, a rejected one propagates its error.
* The module-level `promiseCache` is modelled as an association list from
  string keys to promise ids with JS `Map` semantics (`mapGet`, `mapHas`,
  `mapSet`, `mapDelete`); `useStreamable` threads the cache and the heap
  explicitly and returns them next to its `Resolution`.
-/

namespace StreamableLib

/-- One-shot state of a JS promise: pending, fulfilled with a value, or
rejected with an error. -/
inductive PState (T E : Type) where
  | pending
  | fulfilled (v : T)
  | rejected (e : E)
deriving DecidableEq

/-- The promise heap: position `i` holds the state of the promise whose
identity is `i`; allocation appends. -/
abbrev Heap (T E : Type) := List (PState T E)

/-- `export type Streamable<T> = T | Promise<T>`: a synchronous value or a
(native) promise, the latter given by its heap id. -/
inductive Streamable (T : Type) where
  | sync (v : T)
  | promise (id : Nat)
deriving DecidableEq

/-- `function isPromise<T>(value: Streamable<T>): value is Promise<T> {
return value instanceof Promise; }` -/
def isPromise {T : Type} : Streamable T → Bool
  | Streamable.sync _ => false
  | Streamable.promise _ => true

/-- State of the promise with id `id`; an unallocated id reads as pending
(it can never be reached by the code, which only stores allocated ids). -/
def stateOf {T E : Type} (h : Heap T E) (id : Nat) : PState T E :=
  h.getD id PState.pending

/-- The producer settles a pending promise by fulfilling it with `v`. -/
def fulfill {T E : Type} (h : Heap T E) (id : Nat) (v : T) : Heap T E :=
  h.set id (PState.fulfilled v)

/-- The producer settles a pending promise by rejecting it with `e`. -/
def reject {T E : Type} (h : Heap T E) (id : Nat) (e : E) : Heap T E :=
  h.set id (PState.rejected e)

/-- `Promise.resolve(streamable)`: a native promise is returned unchanged
(same identity, no allocation); a synchronous value is wrapped in a fresh
already-fulfilled promise appended to the heap. -/
def promiseResolve {T E : Type} : Streamable T → Heap T E → Nat × Heap T E
  | Streamable.promise pid, h => (pid, h)
  | Streamable.sync v, h => (h.length, h ++ [PState.fulfilled v])

/-- Result of one resolution attempt, the spec's explicit variant of the
host's suspend mechanism: `Ready(T) | Pending(handle) | Failed(error)`. -/
inductive Resolution (T E : Type) where
  | ready (v : T)
  | suspended (id : Nat)
  | failed (e : E)
deriving DecidableEq

/-- React's `use(promise)`: yield the fulfilled value, propagate the
rejection, or suspend on the pending promise's handle. -/
def usePromise {T E : Type} (h : Heap T E) (id : Nat) : Resolution T E :=
  match stateOf h id with
  | PState.pending => Resolution.suspended id
  | PState.fulfilled v => Resolution.ready v
  | PState.rejected e => Resolution.failed e

/-- The `promiseCache` store: JS `Map<string, Promise<unknown>>`, keys to
promise ids. -/
abbrev PromiseCache := List (String × Nat)

/-- JS `Map.prototype.get`: first binding of the key, if any. -/
def mapGet : PromiseCache → String → Option Nat
  | [], _ => none
  | (k', v) :: rest, k => if k' = k then some v else mapGet rest k

/-- JS `Map.prototype.has`. -/
def mapHas (c : PromiseCache) (k : String) : Bool :=
  (mapGet c k).isSome

/-- JS `Map.prototype.set`: replace the binding in place, else append. -/
def mapSet : PromiseCache → String → Nat → PromiseCache
  | [], k, v => [(k, v)]
  | (k', v') :: rest, k, v =>
    if k' = k then (k, v) :: rest else (k', v') :: mapSet rest k v

/-- JS `Map.prototype.delete`: remove the key's binding.  (A real `Map`
never holds two bindings of one key, so removing every binding agrees with
it on every reachable store.) -/
def mapDelete : PromiseCache → String → PromiseCache
  | [], _ => []
  | (k', v') :: rest, k =>
    if k' = k then mapDelete rest k else (k', v') :: mapDelete rest k

/-- The conditional-store step of `useStreamable`:
`if(!promiseCache.has(key)) { promiseCache.set(key, Promise.resolve(streamable)); }` -/
def cacheStep {T E : Type} (cache : PromiseCache) (key : String)
    (s : Streamable T) (h : Heap T E) : PromiseCache × Heap T E :=
  if mapHas cache key then (cache, h)
  else (mapSet cache key (promiseResolve s h).1, (promiseResolve s h).2)

/-- `export function useStreamable<T>(streamable: Streamable<T>, key: string): T`
(final workshop version).  A non-promise is returned directly; otherwise
the cache step runs and the cached promise is passed to `use`.  The last
match arm models the non-null cast `promiseCache.get(key) as Promise<T>`;
it is unreachable, since after `cacheStep` the key is always bound. -/
def useStreamable {T E : Type} (s : Streamable T) (key : String)
    (cache : PromiseCache) (h : Heap T E) :
    Resolution T E × PromiseCache × Heap T E :=
  match s with
  | Streamable.sync v => (Resolution.ready v, cache, h)
  | Streamable.promise pid =>
    let ch := cacheStep cache key (Streamable.promise pid) h
    match mapGet ch.1 key with
    | some cached => (usePromise ch.2 cached, ch.1, ch.2)
    | none => (Resolution.suspended pid, ch.1, ch.2)

/-- The spec's cache-level operation `get_or_create(key, factory)` as the
code realises it: run the conditional-store step (the factory being
`() => Promise.resolve(streamable)`), then read the key back. -/
def get_or_create {T E : Type} (cache : PromiseCache) (key : String)
    (s : Streamable T) (h : Heap T E) :
    Option Nat × PromiseCache × Heap T E :=
  let ch := cacheStep cache key s h
  (mapGet ch.1 key, ch.1, ch.2)

/-- Modelled from the spec: the workshop defers a fuller cache to
`src/vibes/soul/lib/streamable.tsx`, which is not part of these sources;
spec section 4.2 specifies `invalidate(key)` as explicit removal of the
key's entry from the keyed store, which on the `Map` store is key
deletion. -/
def invalidate (cache : PromiseCache) (key : String) : PromiseCache :=
  mapDelete cache key

/-- A sequence of resolution attempts for one key, each threading the
cache and heap left by the previous one; returns the final cache and
heap. -/
def attempts {T E : Type} : List (Streamable T) → String → PromiseCache →
    Heap T E → PromiseCache × Heap T E
  | [], _, c, h => (c, h)
  | s :: rest, k, c, h =>
    let r := useStreamable s k c h
    attempts rest k r.2.1 r.2.2

/-- Outcome of rendering a subtree: produced view, suspension signal
escaping upward (React's thrown pending promise), or error signal
escaping upward (caught by an error boundary, never by `Suspense`). -/
inductive RenderResult (V E : Type) where
  | output (v : V)
  | suspendSignal (id : Nat)
  | errorSignal (e : E)
deriving DecidableEq

/-- `function UseStreamable<T>({value, children, queryKey}) { return
children(useStreamable(value, queryKey)); }`: resolve, then apply the
render-prop; suspension and failure escape as signals. -/
def UseStreamable {T E V : Type} (value : Streamable T) (children : T → V)
    (queryKey : String) (cache : PromiseCache) (h : Heap T E) :
    RenderResult V E × PromiseCache × Heap T E :=
  let r := useStreamable value queryKey cache h
  (match r.1 with
    | Resolution.ready v => RenderResult.output (children v)
    | Resolution.suspended id => RenderResult.suspendSignal id
    | Resolution.failed e => RenderResult.errorSignal e,
   r.2.1, r.2.2)

/-- The host `Suspense` boundary (external collaborator, spec section 6):
it catches a suspension signal of its child and shows the fallback;
output passes through, and an error signal passes through to the
enclosing error boundary. -/
def Suspense {V E : Type} (fallback : V) (child : RenderResult V E) :
    RenderResult V E :=
  match child with
  | RenderResult.suspendSignal _ => RenderResult.output fallback
  | other => other

/-- `function Stream<T>({value, fallback, children, queryKey}) { return
(<Suspense fallback={fallback}><UseStreamable value={value}
queryKey={queryKey}>{children}</UseStreamable></Suspense>); }` — the
resolver invocation is nested inside the boundary. -/
def Stream {T E V : Type} (value : Streamable T) (fallback : V)
    (children : T → V) (queryKey : String) (cache : PromiseCache)
    (h : Heap T E) : RenderResult V E × PromiseCache × Heap T E :=
  let r := UseStreamable value children queryKey cache h
  (Suspense fallback r.1, r.2.1, r.2.2)

/-- An arbitrary JS runtime value as `useStreamable` can receive it (the
`Streamable<T>` annotation is erased at runtime): a plain value, a
thenable object (has a `.then` method but was not constructed by the
`Promise` constructor), or a native `Promise` instance. -/
inductive JSValue (T : Type) where
  | plain (v : T)
  | thenable (id : Nat)
  | nativePromise (id : Nat)
deriving DecidableEq

/-- The discriminant `isPromise` actually computes at runtime:
`value instanceof Promise`, true only of native `Promise` instances. -/
def instanceOfPromise {T : Type} : JSValue T → Bool
  | JSValue.nativePromise _ => true
  | _ => false

/-- The structural discriminant the code does NOT use: does the value
have a `.then` method (thenables included)? -/
def hasThenMethod {T : Type} : JSValue T → Bool
  | JSValue.plain _ => false
  | _ => true

/-- `useStreamable` on an arbitrary runtime value: the branch is picked
by `instanceof Promise`, so everything that is not a native `Promise`
instance — thenables included — takes the synchronous fast path and is
returned unchanged; a native promise goes through the cache step and
`use` exactly as in `useStreamable`. -/
def useStreamableJS {T E : Type} (s : JSValue T) (key : String)
    (cache : PromiseCache) (h : Heap (JSValue T) E) :
    Resolution (JSValue T) E × PromiseCache × Heap (JSValue T) E :=
  match s with
  | JSValue.nativePromise pid =>
    let ch := cacheStep cache key (Streamable.promise pid) h
    (match mapGet ch.1 key with
      | some cached => (usePromise ch.2 cached, ch.1, ch.2)
      | none => (Resolution.suspended pid, ch.1, ch.2))
  | other => (Resolution.ready other, cache, h)

/-! ## Map and heap lemmas -/

theorem mapGet_set_self (c : PromiseCache) (k : String) (v : Nat) :
    mapGet (mapSet c k v) k = some v := by
  induction c with
  | nil => simp [mapSet, mapGet]
  | cons p rest ih =>
    by_cases hk : p.1 = k
    · simp [mapSet, mapGet, hk]
    · simp [mapSet, mapGet, hk, ih]

theorem mapGet_set_ne (c : PromiseCache) {k k' : String} (v : Nat)
    (hne : k ≠ k') : mapGet (mapSet c k v) k' = mapGet c k' := by
  induction c with
  | nil => simp [mapSet, mapGet, hne]
  | cons p rest ih =>
    by_cases hk : p.1 = k
    · simp [mapSet, mapGet, hk, hne]
    · simp [mapSet, mapGet, hk, ih]

theorem mapGet_delete_self (c : PromiseCache) (k : String) :
    mapGet (mapDelete c k) k = none := by
  induction c with
  | nil => simp [mapDelete, mapGet]
  | cons p rest ih =>
    by_cases hk : p.1 = k
    · simp [mapDelete, hk, ih]
    · simp [mapDelete, mapGet, hk, ih]

theorem mapHas_of_get_some {c : PromiseCache} {k : String} {v : Nat}
    (hg : mapGet c k = some v) : mapHas c k = true := by
  simp [mapHas, hg]

theorem mapHas_of_get_none {c : PromiseCache} {k : String}
    (hg : mapGet c k = none) : mapHas c k = false := by
  simp [mapHas, hg]

theorem getD_set_self {α : Type} :
    ∀ (l : List α) (i : Nat) (a d : α), i < l.length →
      (l.set i a).getD i d = a := by
  intro l
  induction l with
  | nil => intro i a d hi; simp at hi
  | cons x xs ih =>
    intro i a d hi
    cases i with
    | zero => simp [List.set, List.getD]
    | succ n =>
      simp only [List.set, List.getD_cons_succ]
      exact ih n a d (Nat.lt_of_succ_lt_succ hi)

theorem getD_append_left {α : Type} :
    ∀ (l l' : List α) (i : Nat) (d : α), i < l.length →
      (l ++ l').getD i d = l.getD i d := by
  intro l
  induction l with
  | nil => intro l' i d hi; simp at hi
  | cons x xs ih =>
    intro l' i d hi
    cases i with
    | zero => simp [List.getD]
    | succ n =>
      simp only [List.cons_append, List.getD_cons_succ]
      exact ih l' n d (Nat.lt_of_succ_lt_succ hi)

theorem stateOf_fulfill_self {T E : Type} (h : Heap T E) (id : Nat)
    (v : T) (hlen : id < h.length) :
    stateOf (fulfill h id v) id = PState.fulfilled v :=
  getD_set_self h id (PState.fulfilled v) PState.pending hlen

theorem stateOf_append_left {T E : Type} (h : Heap T E)
    (xs : Heap T E) (id : Nat) (hlen : id < h.length) :
    stateOf (h ++ xs) id = stateOf h id :=
  getD_append_left h xs id PState.pending hlen

/-! ## Resolver unfolding lemmas -/

theorem cacheStep_of_has {T E : Type} {c : PromiseCache} {k : String}
    (s : Streamable T) (h : Heap T E) (hh : mapHas c k = true) :
    cacheStep c k s h = (c, h) := by
  simp [cacheStep, hh]

theorem cacheStep_of_none {T E : Type} {c : PromiseCache} {k : String}
    (s : Streamable T) (h : Heap T E) (hg : mapGet c k = none) :
    cacheStep c k s h =
      (mapSet c k (promiseResolve s h).1, (promiseResolve s h).2) := by
  simp [cacheStep, mapHas_of_get_none hg]

theorem useStreamable_sync {T E : Type} (v : T) (k : String)
    (c : PromiseCache) (h : Heap T E) :
    useStreamable (Streamable.sync v) k c h = (Resolution.ready v, c, h) :=
  rfl

theorem useStreamable_promise_hit {T E : Type} {c : PromiseCache}
    {k : String} {pid : Nat} (q : Nat) (h : Heap T E)
    (hget : mapGet c k = some pid) :
    useStreamable (Streamable.promise q) k c h =
      (usePromise h pid, c, h) := by
  simp [useStreamable, cacheStep_of_has _ h (mapHas_of_get_some hget), hget]

theorem useStreamable_promise_miss {T E : Type} {c : PromiseCache}
    {k : String} (pid : Nat) (h : Heap T E) (hget : mapGet c k = none) :
    useStreamable (Streamable.promise pid) k c h =
      (usePromise h pid, mapSet c k pid, h) := by
  simp [useStreamable, cacheStep_of_none _ h hget, promiseResolve,
    mapGet_set_self]

theorem useStreamable_heap {T E : Type} (s : Streamable T) (k : String)
    (c : PromiseCache) (h : Heap T E) :
    (useStreamable s k c h).2.2 = h := by
  cases s with
  | sync v => rfl
  | promise pid =>
    cases hget : mapGet c k with
    | some cached => simp [useStreamable_promise_hit pid h hget]
    | none => simp [useStreamable_promise_miss pid h hget]

theorem useStreamable_cache_of_get_some {T E : Type} {c : PromiseCache}
    {k : String} {pid : Nat} (s : Streamable T) (h : Heap T E)
    (hget : mapGet c k = some pid) :
    (useStreamable s k c h).2.1 = c := by
  cases s with
  | sync v => rfl
  | promise q => simp [useStreamable_promise_hit q h hget]

theorem attempts_of_get_some {T E : Type} {c : PromiseCache} {k : String}
    {pid : Nat} (ss : List (Streamable T)) (h : Heap T E)
    (hget : mapGet c k = some pid) :
    attempts ss k c h = (c, h) := by
  induction ss with
  | nil => rfl
  | cons s rest ih =>
    simp only [attempts, useStreamable_cache_of_get_some s h hget,
      useStreamable_heap s k c h]
    exact ih

theorem attempts_heap {T E : Type} (ss : List (Streamable T)) (k : String)
    (c : PromiseCache) (h : Heap T E) : (attempts ss k c h).2 = h := by
  induction ss generalizing c with
  | nil => rfl
  | cons s rest ih =>
    simp only [attempts, useStreamable_heap s k c h]
    exact ih _

theorem cacheStep_get_some {T E : Type} (c : PromiseCache) (k : String)
    (s : Streamable T) (h : Heap T E) :
    ∃ pid, mapGet (cacheStep c k s h).1 k = some pid := by
  cases hg : mapGet c k with
  | some pid =>
    rw [cacheStep_of_has s h (mapHas_of_get_some hg)]
    exact ⟨pid, hg⟩
  | none =>
    rw [cacheStep_of_none s h hg]
    exact ⟨_, mapGet_set_self c k _⟩

/-! ## Claim theorems -/

/-- C1, counterexample: with a fulfilled computation already cached under
the key `"k"` (its result is `1`), a later `useStreamable` call with the
synchronous value `2` and the same key returns `2`, not the cached
computation's result — the later synchronous value is NOT ignored in
favor of the cached wrapper; the synchronous fast path bypasses the cache
entirely. -/
theorem c1_counterexample :
    mapGet [("k", 0)] "k" = some 0
    ∧ usePromise ([PState.fulfilled 1] : Heap Nat String) 0
        = Resolution.ready 1
    ∧ (useStreamable (Streamable.sync 2) "k" [("k", 0)]
        ([PState.fulfilled 1] : Heap Nat String)).1
        = Resolution.ready 2
    ∧ (useStreamable (Streamable.sync 2) "k" [("k", 0)]
        ([PState.fulfilled 1] : Heap Nat String)).1
        ≠ usePromise ([PState.fulfilled 1] : Heap Nat String) 0 := by
  refine ⟨by decide, rfl, rfl, by decide⟩

/-- C1, amended: when a computation is already cached under key `k`, a
subsequent `useStreamable` call with a synchronous input returns that
synchronous value directly (the cache is bypassed on the synchronous fast
path); a subsequent call with a pending (promise) input and the same key
resolves against the cached computation, the identity of the later input
being ignored — so the resolved output is stable across promise-input
render attempts for the same key. -/
theorem c1_amended {T E : Type} (v : T) (q pid : Nat) (k : String)
    (c : PromiseCache) (h : Heap T E) (hget : mapGet c k = some pid) :
    useStreamable (Streamable.sync v) k c h = (Resolution.ready v, c, h)
    ∧ useStreamable (Streamable.promise q) k c h = (usePromise h pid, c, h) :=
  ⟨rfl, useStreamable_promise_hit q h hget⟩

/-- Witness for C1 (amended) at `v = 7`, `q = 3`, cached id `0` fulfilled
with `5` under key `"k"`. -/
theorem c1_amended_witness :
    useStreamable (Streamable.sync 7) "k" [("k", 0)]
        ([PState.fulfilled 5] : Heap Nat String)
      = (Resolution.ready 7, [("k", 0)], [PState.fulfilled 5])
    ∧ useStreamable (Streamable.promise 3) "k" [("k", 0)]
        ([PState.fulfilled 5] : Heap Nat String)
      = (usePromise ([PState.fulfilled 5] : Heap Nat String) 0,
         [("k", 0)], [PState.fulfilled 5]) :=
  c1_amended 7 3 0 "k" [("k", 0)] [PState.fulfilled 5] (by decide)

/-- C2: `get_or_create` is idempotent — a second call with the same key
returns the identical stored computation and changes neither the cache
(the factory is not re-invoked) nor the heap (no wrapper is created);
arbitrarily many resolution attempts for a fixed key never extend the
heap, i.e. never create any new underlying computation; an existing entry
survives any sequence of attempts; and once the cached computation for
the key is fulfilled, a resolution attempt for that key never suspends
again. -/
theorem c2_get_or_create_idempotent {T E : Type} (k : String)
    (s1 s2 s3 : Streamable T) (ss : List (Streamable T))
    (c : PromiseCache) (h : Heap T E) :
    get_or_create (get_or_create c k s1 h).2.1 k s2 (get_or_create c k s1 h).2.2
        = get_or_create c k s1 h
    ∧ (attempts ss k c h).2 = h
    ∧ (∀ pid, mapGet c k = some pid →
        mapGet (attempts ss k c h).1 k = some pid)
    ∧ (∀ pid v, mapGet c k = some pid → stateOf h pid = PState.fulfilled v →
        ∀ j, (useStreamable s3 k c h).1 ≠ Resolution.suspended j) := by
  obtain ⟨pid1, hp1⟩ := cacheStep_get_some c k s1 h
  refine ⟨?_, attempts_heap ss k c h, ?_, ?_⟩
  · simp only [get_or_create]
    rw [cacheStep_of_has s2 _ (mapHas_of_get_some hp1)]
  · intro pid hget
    rw [attempts_of_get_some ss h hget]
    exact hget
  · intro pid v hget hst j
    cases s3 with
    | sync w => simp [useStreamable_sync]
    | promise q =>
      rw [useStreamable_promise_hit q h hget]
      simp [usePromise, hst]

/-- Witness for C2 at key `"k"`, cached id `0` fulfilled with `5`: the
entry survives an attempt list and a fresh promise input does not
suspend. -/
theorem c2_witness :
    mapGet (attempts [Streamable.promise 3, Streamable.sync 9] "k"
        [("k", 0)] ([PState.fulfilled 5] : Heap Nat String)).1 "k" = some 0
    ∧ (useStreamable (Streamable.promise 3) "k" [("k", 0)]
        ([PState.fulfilled 5] : Heap Nat String)).1
        ≠ Resolution.suspended 7 :=
  ⟨(c2_get_or_create_idempotent "k" (Streamable.sync 9) (Streamable.sync 9)
      (Streamable.promise 3) [Streamable.promise 3, Streamable.sync 9]
      [("k", 0)] [PState.fulfilled 5]).2.2.1 0 (by decide),
   (c2_get_or_create_idempotent "k" (Streamable.sync 9) (Streamable.sync 9)
      (Streamable.promise 3) [Streamable.promise 3, Streamable.sync 9]
      [("k", 0)] [PState.fulfilled 5]).2.2.2 0 5 (by decide) (by decide) 7⟩

/-- C3: for every synchronous value `v` and key `k`, the resolver returns
`v` itself immediately (no suspension) and leaves the cache and the heap
untouched. -/
theorem c3_sync_no_cache {T E : Type} (v : T) (k : String)
    (c : PromiseCache) (h : Heap T E) :
    useStreamable (Streamable.sync v) k c h = (Resolution.ready v, c, h) :=
  rfl

/-- C4: resolving a pending computation suspends (yielding the pending
handle, not a value) and stores the computation under the key; once the
computation fulfills with `v`, the resumed resolution for the same key
returns `v`. -/
theorem c4_pending_suspends_then_ready {T E : Type} (k : String)
    (pid : Nat) (c : PromiseCache) (h : Heap T E) (v : T)
    (hc : mapGet c k = none) (hp : stateOf h pid = PState.pending)
    (hlen : pid < h.length) :
    (useStreamable (Streamable.promise pid) k c h).1
        = Resolution.suspended pid
    ∧ (useStreamable (Streamable.promise pid) k c h).2.1 = mapSet c k pid
    ∧ (useStreamable (Streamable.promise pid) k (mapSet c k pid)
        (fulfill h pid v)).1 = Resolution.ready v := by
  refine ⟨?_, ?_, ?_⟩
  · rw [useStreamable_promise_miss pid h hc]
    simp [usePromise, hp]
  · rw [useStreamable_promise_miss pid h hc]
  · rw [useStreamable_promise_hit pid (fulfill h pid v)
      (mapGet_set_self c k pid)]
    simp [usePromise, stateOf_fulfill_self h pid v hlen]

/-- Witness for C4 at key `"k"`, promise `0` pending in a one-promise
heap, fulfillment value `4`. -/
theorem c4_witness :
    (useStreamable (Streamable.promise 0) "k" []
        ([PState.pending] : Heap Nat String)).1 = Resolution.suspended 0
    ∧ (useStreamable (Streamable.promise 0) "k" []
        ([PState.pending] : Heap Nat String)).2.1 = mapSet [] "k" 0
    ∧ (useStreamable (Streamable.promise 0) "k" (mapSet [] "k" 0)
        (fulfill ([PState.pending] : Heap Nat String) 0 4)).1
        = Resolution.ready 4 :=
  c4_pending_suspends_then_ready "k" 0 [] [PState.pending] 4
    (by decide) (by decide) (by decide)

/-- C5: for a genuine promise input and a fresh key, no new asynchronous
primitive is created — `Promise.resolve` of a native promise is that same
promise, the heap is unchanged, and the entry stored under the key is the
caller's own promise id. -/
theorem c5_no_rewrapping {T E : Type} (pid : Nat) (k : String)
    (c : PromiseCache) (h : Heap T E) (hc : mapGet c k = none) :
    promiseResolve (Streamable.promise pid) h = (pid, h)
    ∧ useStreamable (Streamable.promise pid) k c h
        = (usePromise h pid, mapSet c k pid, h)
    ∧ mapGet (useStreamable (Streamable.promise pid) k c h).2.1 k
        = some pid := by
  refine ⟨rfl, useStreamable_promise_miss pid h hc, ?_⟩
  rw [useStreamable_promise_miss pid h hc]
  exact mapGet_set_self c k pid

/-- Witness for C5 at promise `0`, fresh key `"k"`, empty cache. -/
theorem c5_witness :
    promiseResolve (Streamable.promise 0)
        ([PState.pending] : Heap Nat String)
      = (0, [PState.pending])
    ∧ useStreamable (Streamable.promise 0) "k" []
        ([PState.pending] : Heap Nat String)
      = (usePromise ([PState.pending] : Heap Nat String) 0,
         mapSet [] "k" 0, [PState.pending])
    ∧ mapGet (useStreamable (Streamable.promise 0) "k" []
        ([PState.pending] : Heap Nat String)).2.1 "k" = some 0 :=
  c5_no_rewrapping 0 "k" [] [PState.pending] (by decide)

/-- C6: when the computation cached under the key is rejected with `e`,
resolution for that key fails with exactly `e` and leaves the cache and
heap unchanged; a later resolution for the same key (threading the state
the first one left) yields the same rejection; and the error passes
through the `Stream` boundary as an error signal — `Suspense` does not
catch it, it reaches the enclosing error boundary. -/
theorem c6_rejection_propagation {T E V : Type} (k : String)
    (q q' pid : Nat) (e : E) (c : PromiseCache) (h : Heap T E)
    (fallback : V) (children : T → V)
    (hget : mapGet c k = some pid)
    (hst : stateOf h pid = PState.rejected e) :
    useStreamable (Streamable.promise q) k c h = (Resolution.failed e, c, h)
    ∧ useStreamable (Streamable.promise q') k
        (useStreamable (Streamable.promise q) k c h).2.1
        (useStreamable (Streamable.promise q) k c h).2.2
        = (Resolution.failed e, c, h)
    ∧ (Stream (Streamable.promise q) fallback children k c h).1
        = RenderResult.errorSignal e := by
  have h1 : useStreamable (Streamable.promise q) k c h
      = (Resolution.failed e, c, h) := by
    rw [useStreamable_promise_hit q h hget]
    simp [usePromise, hst]
  refine ⟨h1, ?_, ?_⟩
  · rw [h1]
    rw [useStreamable_promise_hit q' h hget]
    simp [usePromise, hst]
  · simp [Stream, UseStreamable, h1, Suspense]

/-- Witness for C6 at key `"k"`, cached id `0` rejected with `"boom"`. -/
theorem c6_witness :
    useStreamable (Streamable.promise 1) "k" [("k", 0)]
        ([PState.rejected "boom"] : Heap Nat String)
      = (Resolution.failed "boom", [("k", 0)], [PState.rejected "boom"])
    ∧ useStreamable (Streamable.promise 2) "k"
        (useStreamable (Streamable.promise 1) "k" [("k", 0)]
          ([PState.rejected "boom"] : Heap Nat String)).2.1
        (useStreamable (Streamable.promise 1) "k" [("k", 0)]
          ([PState.rejected "boom"] : Heap Nat String)).2.2
      = (Resolution.failed "boom", [("k", 0)], [PState.rejected "boom"])
    ∧ (Stream (Streamable.promise 1) 99 (fun v => v + 1) "k" [("k", 0)]
        ([PState.rejected "boom"] : Heap Nat String)).1
      = RenderResult.errorSignal "boom" :=
  c6_rejection_propagation "k" 1 2 0 "boom" [("k", 0)]
    [PState.rejected "boom"] 99 (fun v => v + 1) (by decide) (by decide)

/-- C7: `invalidate` removes the key's entry, and a subsequent
`get_or_create` for that key invokes the factory again, storing and
returning a freshly allocated computation (`h.length`) that is distinct
from the previously cached one and leaves the previous computation's
state untouched. -/
theorem c7_invalidate_recreates {T E : Type} (k : String)
    (c : PromiseCache) (h : Heap T E) (v : T) (pid : Nat)
    (hget : mapGet c k = some pid) (hpid : pid < h.length) :
    mapHas (invalidate c k) k = false
    ∧ get_or_create (invalidate c k) k (Streamable.sync v) h
        = (some h.length, mapSet (invalidate c k) k h.length,
           h ++ [PState.fulfilled v])
    ∧ h.length ≠ pid
    ∧ stateOf (h ++ [PState.fulfilled v]) pid = stateOf h pid := by
  have hdel : mapGet (invalidate c k) k = none := mapGet_delete_self c k
  refine ⟨mapHas_of_get_none hdel, ?_, Nat.ne_of_gt hpid,
    stateOf_append_left h _ pid hpid⟩
  simp only [get_or_create]
  rw [cacheStep_of_none _ h hdel]
  simp [promiseResolve, mapGet_set_self]

/-- Witness for C7 at key `"k"`, previous entry id `0` (pending) in a
one-promise heap, new synchronous value `5`. -/
theorem c7_witness :
    mapHas (invalidate [("k", 0)] "k") "k" = false
    ∧ get_or_create (invalidate [("k", 0)] "k") "k" (Streamable.sync 5)
        ([PState.pending] : Heap Nat String)
      = (some 1, mapSet (invalidate [("k", 0)] "k") "k" 1,
         [PState.pending, PState.fulfilled 5])
    ∧ (1 : Nat) ≠ 0
    ∧ stateOf ([PState.pending, PState.fulfilled 5] : Heap Nat String) 0
      = stateOf ([PState.pending] : Heap Nat String) 0 :=
  c7_invalidate_recreates "k" [("k", 0)] [PState.pending] 5 0
    (by decide) (by decide)

/-- C8: the `Stream` wrapper nests the resolver inside the boundary:
while the resolver suspends, the composed view is the fallback; when the
resolver returns synchronously with `v`, the composed view is the render
function applied to `v`; and a suspension signal never escapes the
boundary to the parent tree. -/
theorem c8_stream_boundary {T E V : Type} (value : Streamable T)
    (k : String) (fallback : V) (children : T → V) (c : PromiseCache)
    (h : Heap T E) :
    (∀ id, (useStreamable value k c h).1 = Resolution.suspended id →
      (Stream value fallback children k c h).1
        = RenderResult.output fallback)
    ∧ (∀ v, (useStreamable value k c h).1 = Resolution.ready v →
      (Stream value fallback children k c h).1
        = RenderResult.output (children v))
    ∧ ∀ id, (Stream value fallback children k c h).1
        ≠ RenderResult.suspendSignal id := by
  refine ⟨?_, ?_, ?_⟩
  · intro id hid
    simp [Stream, UseStreamable, hid, Suspense]
  · intro v hv
    simp [Stream, UseStreamable, hv, Suspense]
  · intro id
    cases hr : (useStreamable value k c h).1 <;>
      simp [Stream, UseStreamable, hr, Suspense]

/-- Witness for C8: a pending promise under fresh key `"k"` renders the
fallback `99`, and the same key with its promise fulfilled renders the
render function's output. -/
theorem c8_witness :
    (Stream (Streamable.promise 0) 99 (fun v => v + 1) "k" []
        ([PState.pending] : Heap Nat String)).1 = RenderResult.output 99
    ∧ (Stream (Streamable.sync 6) 99 (fun v => v + 1) "k" []
        ([PState.pending] : Heap Nat String)).1 = RenderResult.output 7 :=
  ⟨(c8_stream_boundary (Streamable.promise 0) "k" 99 (fun v => v + 1) []
      [PState.pending]).1 0 (by decide),
   (c8_stream_boundary (Streamable.sync 6) "k" 99 (fun v => v + 1) []
      [PState.pending]).2.1 6 (by decide)⟩

/-- C9: cache operations are key-scoped — a resolution attempt under key
`k1` leaves the entry of every other key `k2` unchanged, and never
modifies the promise heap at all. -/
theorem c9_key_scoped_frame {T E : Type} (s : Streamable T)
    (k1 k2 : String) (c : PromiseCache) (h : Heap T E) (hne : k1 ≠ k2) :
    mapGet (useStreamable s k1 c h).2.1 k2 = mapGet c k2
    ∧ (useStreamable s k1 c h).2.2 = h := by
  refine ⟨?_, useStreamable_heap s k1 c h⟩
  cases s with
  | sync v => rfl
  | promise pid =>
    cases hget : mapGet c k1 with
    | some cached =>
      rw [useStreamable_cache_of_get_some (Streamable.promise pid) h hget]
    | none =>
      rw [useStreamable_promise_miss pid h hget]
      exact mapGet_set_ne c pid hne

/-- Witness for C9: resolving `"products"` (pending) leaves the entry of
`"reviews"` untouched. -/
theorem c9_witness :
    mapGet (useStreamable (Streamable.promise 0) "products" [("reviews", 1)]
        ([PState.pending, PState.fulfilled 5] : Heap Nat String)).2.1
        "reviews" = mapGet [("reviews", 1)] "reviews"
    ∧ (useStreamable (Streamable.promise 0) "products" [("reviews", 1)]
        ([PState.pending, PState.fulfilled 5] : Heap Nat String)).2.2
      = [PState.pending, PState.fulfilled 5] :=
  c9_key_scoped_frame (Streamable.promise 0) "products" "reviews"
    [("reviews", 1)] [PState.pending, PState.fulfilled 5] (by decide)

/-- C10: any runtime value that is not a native `Promise` instance —
thenables included — fails the `instanceof Promise` discriminant, takes
the synchronous fast path, and is returned unchanged with no cache
interaction; a thenable does have a `.then` method, so the structural
check would classify it differently. -/
theorem c10_instanceof_discriminant {T E : Type} (v : JSValue T)
    (k : String) (c : PromiseCache) (h : Heap (JSValue T) E)
    (hv : instanceOfPromise v = false) :
    useStreamableJS v k c h = (Resolution.ready v, c, h)
    ∧ hasThenMethod (JSValue.thenable 0 : JSValue T) = true
    ∧ instanceOfPromise (JSValue.thenable 0 : JSValue T) = false := by
  cases v with
  | plain w => exact ⟨rfl, rfl, rfl⟩
  | thenable id => exact ⟨rfl, rfl, rfl⟩
  | nativePromise id => simp [instanceOfPromise] at hv

/-- Witness for C10 at the thenable with id `0` over payload type `Nat`. -/
theorem c10_witness :
    useStreamableJS (JSValue.thenable 0 : JSValue Nat) "k" []
        ([] : Heap (JSValue Nat) String)
      = (Resolution.ready (JSValue.thenable 0), [], [])
    ∧ hasThenMethod (JSValue.thenable 0 : JSValue Nat) = true
    ∧ instanceOfPromise (JSValue.thenable 0 : JSValue Nat) = false :=
  c10_instanceof_discriminant (JSValue.thenable 0) "k" [] []
    (by decide)

end StreamableLib
